import Mathlib

/-!
# Verification of the AWS Bedrock series-name extractor (Go)

Shallow embedding of the response-normalization layer of the
`aws-bedrock-golang` CLI: the layered pattern extraction performed by the
backends' `PrintResponse` functions, the `PrintResponse` output streams of
all five backends, the request-payload builders of the `InvokeModel`
functions, and the pre-invocation control flow of `main`.

Strings are modelled as `List Char`.  The two Go regular expressions

  strict: `\[\s*{\s*"series"\s*:\s*"([^"]*)"\s*}\s*\]`
  loose:  `"series"\s*:\s*"([^"]*)"`

contain no alternation, and each starred class is disjoint from the literal
that follows it (`\s` never matches `{`, `:`, `"`, `}`, `]`; `[^"]` never
matches `"`), so matching at a fixed start position is deterministic
maximal-munch and Go's leftmost-match search is exactly a left-to-right scan
for the first position where that deterministic matcher succeeds.  The
matcher below implements precisely that.
-/

namespace BedrockSeries

/-- The characters matched by `\s` in Go's regexp syntax (RE2 Perl class):
tab, newline, form feed, carriage return and space. -/
def isGoSpace (c : Char) : Bool :=
  c = ' ' || c = '\t' || c = '\n' || c = '\x0c' || c = '\r'

/-- Go's `unicode.IsSpace`, used by `strings.TrimSpace`: the Unicode
White_Space property (U+0009–U+000D, U+0020, U+0085, U+00A0, U+1680,
U+2000–U+200A, U+2028, U+2029, U+202F, U+205F, U+3000). -/
def isUnicodeSpace (c : Char) : Bool :=
  (0x9 ≤ c.toNat && c.toNat ≤ 0xD) || c.toNat = 0x20 || c.toNat = 0x85 ||
  c.toNat = 0xA0 || c.toNat = 0x1680 ||
  (0x2000 ≤ c.toNat && c.toNat ≤ 0x200A) || c.toNat = 0x2028 ||
  c.toNat = 0x2029 || c.toNat = 0x202F || c.toNat = 0x205F || c.toNat = 0x3000

/-- Go's `strings.TrimSpace`: drop leading and trailing Unicode space. -/
def trimSpace (s : List Char) : List Char :=
  ((s.dropWhile isUnicodeSpace).reverse.dropWhile isUnicodeSpace).reverse

/-- Consume one expected literal character. -/
def eatLit (c : Char) : List Char → Option (List Char)
  | [] => none
  | a :: rest => if a = c then some rest else none

/-- Consume `\s*` (greedy, `\s` as in Go regexp) followed by the literal
character `c`.  Because `c` is never itself a `\s` character at its use
sites, the greedy munch is exact. -/
def eatWsLit (c : Char) (s : List Char) : Option (List Char) :=
  eatLit c (s.dropWhile isGoSpace)

/-- Consume an expected literal character sequence. -/
def eatStr : List Char → List Char → Option (List Char)
  | [], s => some s
  | c :: lit, s => (eatLit c s).bind (eatStr lit)

/-- Consume `\s*` followed by a literal character sequence. -/
def eatWsStr (lit : List Char) (s : List Char) : Option (List Char) :=
  eatStr lit (s.dropWhile isGoSpace)

/-- `true` on every character except `"`; the class `[^"]` of the capture
group. -/
def notQuote (c : Char) : Bool := c != '\x22'

/-- Consume the capture group with its closing quote, `([^"]*)"`: greedily
take the run of non-quote characters, then require a `"`.  Returns the
captured run and the remainder after the closing quote. -/
def eatCapture (s : List Char) : Option (List Char × List Char) :=
  match eatLit '\x22' (s.dropWhile notQuote) with
  | some rest => some (s.takeWhile notQuote, rest)
  | none => none

/-- The literal `"series"` (quotes included) appearing in both patterns. -/
def seriesKey : List Char := "\x22series\x22".toList

/-- Match the strict pattern `\[\s*{\s*"series"\s*:\s*"([^"]*)"\s*}\s*\]`
anchored at the start of `s`; returns the capture on success.  The match is
deterministic, see the header comment. -/
def matchStrictAt (s : List Char) : Option (List Char) :=
  (eatLit '[' s).bind fun s1 =>
  (eatWsLit '\x7b' s1).bind fun s2 =>
  (eatWsStr seriesKey s2).bind fun s3 =>
  (eatWsLit ':' s3).bind fun s4 =>
  (eatWsLit '\x22' s4).bind fun s5 =>
  (eatCapture s5).bind fun cr =>
  (eatWsLit '\x7d' cr.2).bind fun s6 =>
  (eatWsLit ']' s6).bind fun _ =>
  some cr.1

/-- Match the loose pattern `"series"\s*:\s*"([^"]*)"` anchored at the start
of `s`; returns the capture on success. -/
def matchLooseAt (s : List Char) : Option (List Char) :=
  (eatStr seriesKey s).bind fun s1 =>
  (eatWsLit ':' s1).bind fun s2 =>
  (eatWsLit '\x22' s2).bind fun s3 =>
  (eatCapture s3).bind fun cr =>
  some cr.1

/-- Left-to-right scan for the first position where the anchored matcher `m`
succeeds: Go's `FindStringSubmatch` leftmost-match search, returning the
capture group. -/
def findCapture (m : List Char → Option (List Char)) : List Char → Option (List Char)
  | [] => none
  | c :: rest =>
    match m (c :: rest) with
    | some cap => some cap
    | none => findCapture m rest

/-- Leftmost strict-pattern capture, as in
`jsonPattern.FindStringSubmatch(output)`. -/
def findStrict (s : List Char) : Option (List Char) := findCapture matchStrictAt s

/-- Leftmost loose-pattern capture, as in
`seriesPattern.FindStringSubmatch(output)`. -/
def findLoose (s : List Char) : Option (List Char) := findCapture matchLooseAt s

/-- The canonical compact re-serialization
`fmt.Printf("[{\"series\": \"%s\"}]\n", match[1])` (without the trailing
newline added by `Printf`). -/
def serializeSeries (x : List Char) : List Char :=
  "[\x7b\x22series\x22: \x22".toList ++ x ++ "\x22\x7d]".toList

/-- The three-step layered extraction performed by `PrintResponse` in the
claude, nova and llama70b backends: strict pattern, then loose pattern, then
`strings.TrimSpace` fallback.  This is the single line written to standard
output there. -/
def extract (t : List Char) : List Char :=
  match findStrict t with
  | some x => serializeSeries x
  | none =>
    match findLoose t with
    | some x => serializeSeries x
    | none => trimSpace t

/-- `extract` on Lean `String`s. -/
def extractS (s : String) : String := ⟨extract s.data⟩

/-- Concrete scenario check: strict pattern embedded in commentary. -/
theorem extractS_scenario_strict : extractS "Extra commentary [\x7b\x22series\x22: \x22Friends\x22\x7d] more text" = "[\x7b\x22series\x22: \x22Friends\x22\x7d]" := by decide

/-- Concrete scenario check: loose fragment without the array wrapper. -/
theorem extractS_scenario_loose : extractS "The value \x22series\x22: \x22Breaking Bad\x22 was found." = "[\x7b\x22series\x22: \x22Breaking Bad\x22\x7d]" := by decide

/-- Concrete scenario check: pattern-free text is returned trimmed-verbatim. -/
theorem extractS_scenario_fallback : extractS "No structured data here." = "No structured data here." := by decide

/-- Concrete scenario check: empty input, empty output. -/
theorem extractS_scenario_empty : extractS "" = "" := by decide

/-- Concrete scenario check: surrounding whitespace is trimmed in the fallback. -/
theorem extractS_scenario_trim : extractS "  hi there \n" = "hi there" := by decide

/-! ## Output streams

`PrintResponse` writes through two channels: `fmt.Printf`/`fmt.Println`
(standard output) and `log.Printf`/`log.Println` (the standard logger,
which writes to standard error).  Each event below is one written line. -/

/-- One line written by `PrintResponse` or `main`: either a standard-output
line (`fmt`) or a diagnostic line (`log`). -/
inductive Ev where
  | out : String → Ev
  | log : String → Ev
deriving DecidableEq

/-- The standard-output lines of an event stream, in order. -/
def stdoutOf (evs : List Ev) : List String :=
  evs.filterMap fun e => match e with | .out s => some s | .log _ => none

/-- The diagnostic (logger) lines of an event stream, in order. -/
def logOf (evs : List Ev) : List String :=
  evs.filterMap fun e => match e with | .out _ => none | .log s => some s

/-- Token usage sub-record: each backend's `Usage` struct has the same two
`int` fields `input_tokens` / `output_tokens`. -/
structure TokenUsage where
  inputTokens : Int
  outputTokens : Int
deriving DecidableEq

/-! ## Claude backend (`claude/claude.go`) -/

/-- `claude.ContentItem`. -/
structure ClaudeContentItem where
  type : String
  text : String
deriving DecidableEq

/-- `claude.Message`. -/
structure ClaudeMessage where
  role : String
  content : List ClaudeContentItem
deriving DecidableEq

/-- `claude.Payload`; the two float64 sampling parameters are modelled as
exact rationals (the Go constants `1.0` and `0.999` are exact decimal
literals, compared only against decimal bounds, so no rounding behavior is
involved). -/
structure ClaudePayload where
  anthropicVersion : String
  maxTokens : Int
  topK : Int
  stopSequences : List String
  temperature : ℚ
  topP : ℚ
  messages : List ClaudeMessage
deriving DecidableEq

/-- The payload constructed by `claude.InvokeModel` from a prompt. -/
def claudeBuildPayload (prompt : String) : ClaudePayload :=
  { anthropicVersion := "bedrock-2023-05-31"
    maxTokens := 200
    topK := 250
    stopSequences := []
    temperature := 1
    topP := 999/1000
    messages := [{ role := "user", content := [{ type := "text", text := prompt }] }] }

/-- `claude.Response`.  The Go field `StopSequence` has type `interface` (any
JSON value) and is never read; it is modelled as an optional string. -/
structure ClaudeResponse where
  id : String
  type : String
  role : String
  content : List ClaudeContentItem
  model : String
  stopReason : String
  stopSequence : Option String
  usage : TokenUsage
deriving DecidableEq

/-- `claude.PrintResponse`: with no content items it logs a diagnostic and
returns (printing nothing, not even usage); otherwise it prints the
extraction of the first content item's text to standard output and logs the
usage counters. -/
def claudePrintResponse (r : ClaudeResponse) : List Ev :=
  match r.content with
  | [] => [Ev.log "No response content received from Claude model"]
  | item :: _ =>
    [Ev.out (extractS item.text),
     Ev.log ("Input tokens: " ++ toString r.usage.inputTokens),
     Ev.log ("Output tokens: " ++ toString r.usage.outputTokens)]

/-! ## Nova backend (`nova/nova.go`) -/

/-- `nova.Content`. -/
structure NovaContent where
  text : String
deriving DecidableEq

/-- `nova.Message`. -/
structure NovaMessage where
  role : String
  content : List NovaContent
deriving DecidableEq

/-- `nova.InferenceConfig` (float64 parameters as exact rationals). -/
structure NovaInferenceConfig where
  maxNewTokens : Int
  temperature : ℚ
  topP : ℚ
deriving DecidableEq

/-- `nova.Payload`. -/
structure NovaPayload where
  inferenceConfig : NovaInferenceConfig
  messages : List NovaMessage
deriving DecidableEq

/-- The payload constructed by `nova.InvokeModel` from a prompt. -/
def novaBuildPayload (prompt : String) : NovaPayload :=
  { inferenceConfig := { maxNewTokens := 512, temperature := 7/10, topP := 9/10 }
    messages := [{ role := "user", content := [{ text := prompt }] }] }

/-- The `Output` sub-record of `nova.Response`. -/
structure NovaOutput where
  role : String
  content : List NovaContent
  stop : Bool
deriving DecidableEq

/-- `nova.Response`. -/
structure NovaResponse where
  output : NovaOutput
  usage : TokenUsage
deriving DecidableEq

/-- `nova.PrintResponse`: same shape as the claude one, reading
`response.Output.Content`. -/
def novaPrintResponse (r : NovaResponse) : List Ev :=
  match r.output.content with
  | [] => [Ev.log "No response content received from Nova model"]
  | item :: _ =>
    [Ev.out (extractS item.text),
     Ev.log ("Input tokens: " ++ toString r.usage.inputTokens),
     Ev.log ("Output tokens: " ++ toString r.usage.outputTokens)]

/-! ## Llama 3.2 1B backend (`llama/llama.go`) -/

/-- `llama.Payload`. -/
structure LlamaPayload where
  prompt : String
  maxGenLen : Int
  temperature : ℚ
  topP : ℚ
deriving DecidableEq

/-- The payload constructed by `llama.InvokeModel` from a prompt. -/
def llamaBuildPayload (p : String) : LlamaPayload :=
  { prompt := p, maxGenLen := 512, temperature := 7/10, topP := 9/10 }

/-- `llama.Response`. -/
structure LlamaResponse where
  generation : String
  usage : TokenUsage
deriving DecidableEq

/-- `llama.PrintResponse`: prints the generation verbatim behind a
`Response: ` prefix, then the usage counters — all on standard output, the
counters only when one of them is positive.  No extraction layer. -/
def llamaPrintResponse (r : LlamaResponse) : List Ev :=
  Ev.out ("Response: " ++ r.generation) ::
  (if 0 < r.usage.inputTokens ∨ 0 < r.usage.outputTokens then
    [Ev.out ("Input tokens: " ++ toString r.usage.inputTokens),
     Ev.out ("Output tokens: " ++ toString r.usage.outputTokens)]
   else [])

/-! ## Llama 3.3 70B backend (`llama70b/llama70b.go`)

The authoritative `llama70b/llama70b.go` applies the full three-step
extraction and logs usage; an older revision of the same package (appended
to `llama/llama.go`) still printed the generation verbatim with usage on
standard output. -/

/-- `llama70b.Payload`. -/
structure Llama70bPayload where
  prompt : String
  maxGenLen : Int
  temperature : ℚ
  topP : ℚ
deriving DecidableEq

/-- The payload constructed by `llama70b.InvokeModel` from a prompt
(`MaxGenLen 64`, `Temperature 0.01`, `TopP 0.5`). -/
def llama70bBuildPayload (p : String) : Llama70bPayload :=
  { prompt := p, maxGenLen := 64, temperature := 1/100, topP := 1/2 }

/-- `llama70b.Response`. -/
structure Llama70bResponse where
  generation : String
  usage : TokenUsage
deriving DecidableEq

/-- `llama70b.PrintResponse` (authoritative revision): the three-step
extraction of the generation on standard output, usage counters logged. -/
def llama70bPrintResponse (r : Llama70bResponse) : List Ev :=
  [Ev.out (extractS r.generation),
   Ev.log ("Input tokens: " ++ toString r.usage.inputTokens),
   Ev.log ("Output tokens: " ++ toString r.usage.outputTokens)]

/-! ## DeepSeek backend (`deepseek/deepseek.go`) -/

/-- `deepseek.Message` (also the shape of the anonymous message struct in
`deepseek.Response`). -/
structure DeepseekMessage where
  role : String
  content : String
deriving DecidableEq

/-- `deepseek.InferenceConfig`. -/
structure DeepseekInferenceConfig where
  maxTokens : Int
deriving DecidableEq

/-- `deepseek.Payload`: no temperature / top-p sampling parameters at all. -/
structure DeepseekPayload where
  inferenceConfig : DeepseekInferenceConfig
  messages : List DeepseekMessage
deriving DecidableEq

/-- The payload constructed by `deepseek.InvokeModel` from a prompt. -/
def deepseekBuildPayload (prompt : String) : DeepseekPayload :=
  { inferenceConfig := { maxTokens := 512 }
    messages := [{ role := "user", content := prompt }] }

/-- One element of `deepseek.Response.Choices`. -/
structure DeepseekChoice where
  message : DeepseekMessage
deriving DecidableEq

/-- `deepseek.Response`. -/
structure DeepseekResponse where
  choices : List DeepseekChoice
  usage : TokenUsage
deriving DecidableEq

/-- Models the Go `%+v` rendering of the response struct used in the
empty-choices branch of `deepseek.PrintResponse`; its exact text is
irrelevant to the claims, only that the line goes to standard output. -/
def goFormatDeepseek (r : DeepseekResponse) : String :=
  "\x7bChoices:[" ++
  String.intercalate " " (r.choices.map fun c =>
    "\x7bMessage:\x7bRole:" ++ c.message.role ++ " Content:" ++
      c.message.content ++ "\x7d\x7d") ++
  "] Usage:\x7bInputTokens:" ++ toString r.usage.inputTokens ++
  " OutputTokens:" ++ toString r.usage.outputTokens ++ "\x7d\x7d"

/-- `deepseek.PrintResponse`: everything — the verbatim response text (or
the no-content diagnostic and struct dump) and the usage counters — is
written to standard output with `fmt`.  No extraction layer, no logging
stream. -/
def deepseekPrintResponse (r : DeepseekResponse) : List Ev :=
  (match r.choices with
   | [] => [Ev.out "No response content received from DeepSeek model",
            Ev.out ("Response structure: " ++ goFormatDeepseek r)]
   | c :: _ => [Ev.out ("Response: " ++ c.message.content)]) ++
  [Ev.out ("Input tokens: " ++ toString r.usage.inputTokens),
   Ev.out ("Output tokens: " ++ toString r.usage.outputTokens)]

/-! ## Dispatcher (`main.go`) -/

/-- The keys of the `validModels` map in `main`. -/
def validModelNames : List String := ["nova", "llama", "llama70b", "claude", "deepseek"]

/-- Go's `strings.ToLower` restricted to the characters that can influence
membership in `validModelNames` (whose elements are ASCII): ASCII uppercase
letters, plus the only two non-ASCII code points whose Unicode lowercase is
an ASCII letter (U+0130 → `i`, U+212A → `k`).  Every other character is
left unchanged; since no other character lowercases into ASCII, this agrees
with Go on whether the lowered string is a valid model name. -/
def goToLowerChar (c : Char) : Char :=
  if 'A' ≤ c ∧ c ≤ 'Z' then Char.ofNat (c.toNat + 32)
  else if c.toNat = 0x130 then 'i'
  else if c.toNat = 0x212A then 'k'
  else c

/-- `strings.ToLower` on a whole string (see `goToLowerChar`). -/
def goToLower (s : String) : String := ⟨s.data.map goToLowerChar⟩

/-- `fmt.Sprintf(promptTemplate, inputSeriesName)`: the fixed
series-extraction instruction prompt of `main.go` with the user content
substituted for the single `%s` verb. -/
def promptTemplateFill (input : String) : String :=
  "You are a series name extraction tool that ONLY outputs valid JSON.\n\nINPUT: \x22"
  ++ input ++
  "\x22\n\nINSTRUCTIONS:\n1. Extract ONLY the series name (text that appears before \x22Season\x22 or \x22Episode\x22)\n2. Return ONLY a valid JSON array with format: [\x7b\x22series\x22: \x22extracted name\x22\x7d]\n3. DO NOT include any explanation, additional examples, or commentary\n4. The response must contain NOTHING except the JSON array\n\nFor example, from \x22Friends Season 1\x22, extract just \x22Friends\x22 and output [\x7b\x22series\x22: \x22Friends\x22\x7d]"

/-- The flag values after `flag.Parse`: `main.go` registers exactly the
flags `model` (default `nova`) and `input` (default empty). -/
structure FlagConfig where
  model : String
  input : String
deriving DecidableEq

/-- The registered defaults of `flag.String` in `main`. -/
def defaultFlags : FlagConfig := { model := "nova", input := "" }

/-- Go's `flag.Parse` over the registered flag set of `main.go`, fed a list
of `name=value` arguments: a name that is not a registered flag makes the
flag package report `flag provided but not defined: -name` and exit the
process with status 2 before `main` proceeds. -/
def parseFlags : List (String × String) → FlagConfig → Except String FlagConfig
  | [], cfg => Except.ok cfg
  | (name, value) :: rest, cfg =>
    if name = "model" then parseFlags rest { cfg with model := value }
    else if name = "input" then parseFlags rest { cfg with input := value }
    else Except.error ("flag provided but not defined: -" ++ name)

/-- The environment-derived configuration read by `main` after
`godotenv.Load` (whose own failure is only a logged warning, flagged here
by `dotenvLoadFails`). -/
structure Env where
  accessKeyId : String
  secretAccessKey : String
  awsRegion : String
  dotenvLoadFails : Bool
deriving DecidableEq

/-- What `main` has done by the time it either dies or reaches its first
(and only) `InvokeModel` call.  `fatalExit` means a `log.Fatalf` was hit:
the message is the last log line and the process exits with non-zero
status.  `invokeAttempted` is true exactly when control reaches the
`InvokeModel` call of the selected backend. -/
structure MainPrefixResult where
  stdoutLines : List String
  logLines : List String
  invokeAttempted : Bool
  fatalExit : Bool
deriving DecidableEq

/-- The control flow of `main` from entry up to the backend `InvokeModel`
call, in source order: lowercase the model flag, default the input, fill
the prompt template, validate the model name, validate the input, print the
environment banner, load and check credentials, then print the per-backend
banner and invoke.  Behavior after the invocation depends on the network
response and is modelled separately by the `...PrintResponse` functions. -/
def mainRun (modelFlag inputFlag : String) (env : Env) : MainPrefixResult :=
  let modelName := goToLower modelFlag
  let inputSeriesName :=
    if inputFlag = "" then "Friends Season 001 Episode 001" else inputFlag
  let prompt := promptTemplateFill inputSeriesName
  if validModelNames.contains modelName then
    if inputSeriesName = "" then
      { stdoutLines := []
        logLines := ["Input series name cannot be empty. Provide a valid input using the -input flag."]
        invokeAttempted := false, fatalExit := true }
    else
      let out0 := ["Loading environment variables..."]
      let log0 :=
        (if env.dotenvLoadFails then ["Warning: Error loading .env file"] else []) ++
        ["Using AWS region: " ++ env.awsRegion,
         "AWS access key ID present: " ++ toString (env.accessKeyId != ""),
         "AWS secret access key present: " ++ toString (env.secretAccessKey != "")]
      if env.accessKeyId = "" ∨ env.secretAccessKey = "" ∨ env.awsRegion = "" then
        { stdoutLines := out0
          logLines := log0 ++ ["Missing required environment variables: AWS_ACCESS_KEY_ID and/or AWS_SECRET_ACCESS_KEY and/or AWS_REGION"]
          invokeAttempted := false, fatalExit := true }
      else
        let banner :=
          if modelName = "nova" then
            ["Invoking Amazon Bedrock Nova model...", "Prompt: " ++ prompt]
          else if modelName = "llama" then
            ["Invoking Amazon Bedrock Llama model..."]
          else if modelName = "llama70b" then
            ["Invoking Amazon Bedrock Llama 3.3 70B model...", "Prompt: " ++ prompt]
          else if modelName = "claude" then
            ["Invoking Amazon Bedrock Claude 3 Sonnet model...", "Prompt: " ++ prompt]
          else
            ["Invoking Amazon Bedrock DeepSeek model...", "Prompt: " ++ prompt]
        { stdoutLines := out0 ++ banner, logLines := log0
          invokeAttempted := true, fatalExit := false }
  else
    { stdoutLines := []
      logLines := ["Invalid model specified. Use \x27nova\x27, \x27llama\x27, \x27llama70b\x27, \x27claude\x27, or \x27deepseek\x27"]
      invokeAttempted := false, fatalExit := true }

/-! ## Lemma infrastructure -/

theorem matchStrictAt_nil : matchStrictAt [] = none := rfl

theorem matchLooseAt_nil : matchLooseAt [] = none := rfl

/-- The scan returns `none` exactly when the anchored matcher fails at every
start position. -/
theorem findCapture_none_iff (m : List Char → Option (List Char)) (hm : m [] = none)
    (s : List Char) : findCapture m s = none ↔ ∀ i, m (s.drop i) = none := by
  induction s with
  | nil =>
    constructor
    · intro _ i
      cases i <;> simpa using hm
    · intro _; rfl
  | cons c rest ih =>
    constructor
    · intro h i
      cases hmc : m (c :: rest) with
      | some cap => simp [findCapture, hmc] at h
      | none =>
        have h' : findCapture m rest = none := by simpa [findCapture, hmc] using h
        match i with
        | 0 => simpa using hmc
        | Nat.succ j => simpa using (ih.mp h') j
    · intro h
      have h0 : m (c :: rest) = none := by simpa using h 0
      have hrest : ∀ j, m (rest.drop j) = none := fun j => by simpa using h (j + 1)
      simp [findCapture, h0, ih.mpr hrest]

/-- The scan returns `some y` exactly when the anchored matcher succeeds at a
position with capture `y` and fails at every earlier position: the leftmost
match. -/
theorem findCapture_some_iff (m : List Char → Option (List Char)) (hm : m [] = none)
    (s y : List Char) :
    findCapture m s = some y ↔
      ∃ i, m (s.drop i) = some y ∧ ∀ j < i, m (s.drop j) = none := by
  induction s with
  | nil =>
    constructor
    · intro h; simp [findCapture] at h
    · rintro ⟨i, hi, -⟩
      rw [List.drop_nil, hm] at hi
      cases hi
  | cons c rest ih =>
    constructor
    · intro h
      cases hmc : m (c :: rest) with
      | some cap =>
        have hcy : cap = y := by simpa [findCapture, hmc] using h
        exact ⟨0, by simpa using hcy ▸ hmc, by intro j hj; omega⟩
      | none =>
        have h' : findCapture m rest = some y := by simpa [findCapture, hmc] using h
        obtain ⟨i, hi, hlt⟩ := ih.mp h'
        refine ⟨i + 1, by simpa using hi, ?_⟩
        intro j hj
        match j with
        | 0 => simpa using hmc
        | Nat.succ k => simpa using hlt k (by omega)
    · rintro ⟨i, hi, hlt⟩
      match i with
      | 0 =>
        rw [List.drop_zero] at hi
        simp [findCapture, hi]
      | Nat.succ k =>
        have h0 : m (c :: rest) = none := by simpa using hlt 0 (Nat.succ_pos k)
        have h' : findCapture m rest = some y :=
          ih.mpr ⟨k, by simpa using hi, fun j hj => by simpa using hlt (j + 1) (by omega)⟩
        simp [findCapture, h0, h']

theorem findStrict_none_forall {t : List Char} (h : findStrict t = none) :
    ∀ i, matchStrictAt (t.drop i) = none :=
  (findCapture_none_iff matchStrictAt matchStrictAt_nil t).mp h

theorem findLoose_none_forall {t : List Char} (h : findLoose t = none) :
    ∀ i, matchLooseAt (t.drop i) = none :=
  (findCapture_none_iff matchLooseAt matchLooseAt_nil t).mp h

/-- If a predicate-respecting run is followed by more text, `dropWhile` stops
inside the original text when it would there. -/
theorem dropWhile_append_nonnil {p : Char → Bool} {s : List Char} (v : List Char)
    (h : s.dropWhile p ≠ []) :
    (s ++ v).dropWhile p = s.dropWhile p ++ v := by
  induction s with
  | nil => simp at h
  | cons a rest ih =>
    by_cases ha : p a
    · simp only [List.dropWhile_cons_of_pos ha] at h
      simpa [List.dropWhile_cons_of_pos ha] using ih h
    · simp [List.dropWhile_cons_of_neg ha]

theorem takeWhile_append_nonnil {p : Char → Bool} {s : List Char} (v : List Char)
    (h : s.dropWhile p ≠ []) :
    (s ++ v).takeWhile p = s.takeWhile p := by
  induction s with
  | nil => simp at h
  | cons a rest ih =>
    by_cases ha : p a
    · simp only [List.dropWhile_cons_of_pos ha] at h
      simp [List.takeWhile_cons_of_pos ha, ih h]
    · simp [List.takeWhile_cons_of_neg ha]

theorem eatLit_append {c : Char} {s s' : List Char} (v : List Char)
    (h : eatLit c s = some s') : eatLit c (s ++ v) = some (s' ++ v) := by
  cases s with
  | nil => simp [eatLit] at h
  | cons a rest =>
    by_cases hac : a = c
    · simp only [eatLit, if_pos hac, Option.some.injEq] at h
      simp [eatLit, if_pos hac, h]
    · simp [eatLit, if_neg hac] at h

theorem eatWsLit_append {c : Char} {s s' : List Char} (v : List Char)
    (h : eatWsLit c s = some s') : eatWsLit c (s ++ v) = some (s' ++ v) := by
  unfold eatWsLit at h ⊢
  have hne : s.dropWhile isGoSpace ≠ [] := by
    intro hnil
    rw [hnil] at h
    simp [eatLit] at h
  rw [dropWhile_append_nonnil v hne]
  exact eatLit_append v h

theorem eatStr_append (lit : List Char) :
    ∀ {s s' : List Char} (v : List Char),
      eatStr lit s = some s' → eatStr lit (s ++ v) = some (s' ++ v) := by
  induction lit with
  | nil =>
    intro s s' v h
    simp only [eatStr, Option.some.injEq] at h
    simp [eatStr, h]
  | cons c lit ih =>
    intro s s' v h
    simp only [eatStr] at h ⊢
    cases he : eatLit c s with
    | none => rw [he] at h; simp at h
    | some s1 =>
      rw [he] at h
      simp only [Option.some_bind] at h
      rw [eatLit_append v he]
      simpa using ih v h

theorem eatWsStr_append {lit : List Char} (hlit : lit ≠ []) {s s' : List Char}
    (v : List Char) (h : eatWsStr lit s = some s') :
    eatWsStr lit (s ++ v) = some (s' ++ v) := by
  unfold eatWsStr at h ⊢
  have hne : s.dropWhile isGoSpace ≠ [] := by
    intro hnil
    rw [hnil] at h
    cases lit with
    | nil => exact hlit rfl
    | cons c l => simp [eatStr, eatLit] at h
  rw [dropWhile_append_nonnil v hne]
  exact eatStr_append lit v h

theorem eatCapture_append {s cap rest : List Char} (v : List Char)
    (h : eatCapture s = some (cap, rest)) :
    eatCapture (s ++ v) = some (cap, rest ++ v) := by
  unfold eatCapture at h ⊢
  cases he : eatLit '\x22' (s.dropWhile notQuote) with
  | none => rw [he] at h; cases h
  | some r =>
    rw [he] at h
    simp only [Option.some.injEq, Prod.mk.injEq] at h
    have hne : s.dropWhile notQuote ≠ [] := by
      intro hnil
      rw [hnil] at he
      simp [eatLit] at he
    rw [dropWhile_append_nonnil v hne, eatLit_append v he,
      takeWhile_append_nonnil v hne]
    simp [h.1, h.2]

theorem matchStrictAt_append {s cap : List Char} (v : List Char)
    (h : matchStrictAt s = some cap) : matchStrictAt (s ++ v) = some cap := by
  unfold matchStrictAt at h ⊢
  obtain ⟨s1, h1, h⟩ := Option.bind_eq_some.mp h
  obtain ⟨s2, h2, h⟩ := Option.bind_eq_some.mp h
  obtain ⟨s3, h3, h⟩ := Option.bind_eq_some.mp h
  obtain ⟨s4, h4, h⟩ := Option.bind_eq_some.mp h
  obtain ⟨s5, h5, h⟩ := Option.bind_eq_some.mp h
  obtain ⟨cr, hc, h⟩ := Option.bind_eq_some.mp h
  obtain ⟨s6, h6, h⟩ := Option.bind_eq_some.mp h
  obtain ⟨s7, h7, h⟩ := Option.bind_eq_some.mp h
  obtain ⟨c1, c2⟩ := cr
  rw [eatLit_append v h1, Option.some_bind, eatWsLit_append v h2, Option.some_bind,
    eatWsStr_append (by simp [seriesKey]) v h3, Option.some_bind,
    eatWsLit_append v h4, Option.some_bind, eatWsLit_append v h5, Option.some_bind,
    eatCapture_append v hc, Option.some_bind]
  simp only at h6 h
  rw [eatWsLit_append v h6, Option.some_bind, eatWsLit_append v h7, Option.some_bind]
  exact h

theorem matchLooseAt_append {s cap : List Char} (v : List Char)
    (h : matchLooseAt s = some cap) : matchLooseAt (s ++ v) = some cap := by
  unfold matchLooseAt at h ⊢
  obtain ⟨s1, h1, h⟩ := Option.bind_eq_some.mp h
  obtain ⟨s2, h2, h⟩ := Option.bind_eq_some.mp h
  obtain ⟨s3, h3, h⟩ := Option.bind_eq_some.mp h
  obtain ⟨cr, hc, h⟩ := Option.bind_eq_some.mp h
  obtain ⟨c1, c2⟩ := cr
  rw [eatStr_append _ v h1, Option.some_bind, eatWsLit_append v h2, Option.some_bind,
    eatWsLit_append v h3, Option.some_bind, eatCapture_append v hc, Option.some_bind]
  exact h

/-- The capture group is a `takeWhile notQuote`, so it never contains a
quote character. -/
theorem eatCapture_noQuote {s cap rest : List Char} (h : eatCapture s = some (cap, rest)) :
    ∀ c ∈ cap, notQuote c := by
  unfold eatCapture at h
  cases he : eatLit '\x22' (s.dropWhile notQuote) with
  | none => rw [he] at h; cases h
  | some r =>
    rw [he] at h
    simp only [Option.some.injEq, Prod.mk.injEq] at h
    intro c hc
    rw [← h.1] at hc
    exact List.mem_takeWhile_imp hc

theorem matchStrictAt_noQuote {s cap : List Char} (h : matchStrictAt s = some cap) :
    ∀ c ∈ cap, notQuote c := by
  unfold matchStrictAt at h
  obtain ⟨s1, h1, h⟩ := Option.bind_eq_some.mp h
  obtain ⟨s2, h2, h⟩ := Option.bind_eq_some.mp h
  obtain ⟨s3, h3, h⟩ := Option.bind_eq_some.mp h
  obtain ⟨s4, h4, h⟩ := Option.bind_eq_some.mp h
  obtain ⟨s5, h5, h⟩ := Option.bind_eq_some.mp h
  obtain ⟨cr, hc, h⟩ := Option.bind_eq_some.mp h
  obtain ⟨s6, h6, h⟩ := Option.bind_eq_some.mp h
  obtain ⟨s7, h7, h⟩ := Option.bind_eq_some.mp h
  obtain ⟨c1, c2⟩ := cr
  simp only [Option.some.injEq] at h
  rw [← h]
  exact eatCapture_noQuote hc

theorem matchLooseAt_noQuote {s cap : List Char} (h : matchLooseAt s = some cap) :
    ∀ c ∈ cap, notQuote c := by
  unfold matchLooseAt at h
  obtain ⟨s1, h1, h⟩ := Option.bind_eq_some.mp h
  obtain ⟨s2, h2, h⟩ := Option.bind_eq_some.mp h
  obtain ⟨s3, h3, h⟩ := Option.bind_eq_some.mp h
  obtain ⟨cr, hc, h⟩ := Option.bind_eq_some.mp h
  obtain ⟨c1, c2⟩ := cr
  simp only [Option.some.injEq] at h
  rw [← h]
  exact eatCapture_noQuote hc

theorem findStrict_noQuote {t cap : List Char} (h : findStrict t = some cap) :
    ∀ c ∈ cap, notQuote c := by
  obtain ⟨i, hi, -⟩ :=
    (findCapture_some_iff matchStrictAt matchStrictAt_nil t cap).mp h
  exact matchStrictAt_noQuote hi

theorem findLoose_noQuote {t cap : List Char} (h : findLoose t = some cap) :
    ∀ c ∈ cap, notQuote c := by
  obtain ⟨i, hi, -⟩ :=
    (findCapture_some_iff matchLooseAt matchLooseAt_nil t cap).mp h
  exact matchLooseAt_noQuote hi

/-- A run of non-quote characters before a quote is exactly what the capture
group takes. -/
theorem takeWhile_notQuote_run (x : List Char) (hx : ∀ c ∈ x, notQuote c)
    (rest : List Char) :
    (x ++ '\x22' :: rest).takeWhile notQuote = x ∧
    (x ++ '\x22' :: rest).dropWhile notQuote = '\x22' :: rest := by
  induction x with
  | nil =>
    constructor <;> simp [List.takeWhile_cons, List.dropWhile_cons, notQuote]
  | cons a xs ih =>
    have ha : notQuote a = true := hx a (by simp)
    have ihs := ih fun c hc => hx c (by simp [hc])
    constructor
    · simp [List.takeWhile_cons_of_pos ha, ihs.1]
    · simp [List.dropWhile_cons_of_pos ha, ihs.2]

theorem eatCapture_run (x : List Char) (hx : ∀ c ∈ x, notQuote c) (rest : List Char) :
    eatCapture (x ++ '\x22' :: rest) = some (x, rest) := by
  obtain ⟨ht, hd⟩ := takeWhile_notQuote_run x hx rest
  unfold eatCapture
  rw [hd, ht]
  simp [eatLit]

/-- All-space run followed by a non-space character: greedy `\s*` stops
exactly there. -/
theorem dropWhile_space_run {w : List Char} (hw : ∀ a ∈ w, isGoSpace a)
    {c : Char} (hc : isGoSpace c = false) (rest : List Char) :
    (w ++ c :: rest).dropWhile isGoSpace = c :: rest := by
  induction w with
  | nil => simp [List.dropWhile_cons, hc]
  | cons a ws ih =>
    have ha : isGoSpace a := hw a (by simp)
    have ihs := ih fun b hb => hw b (by simp [hb])
    simp [List.dropWhile_cons_of_pos ha, ihs]

theorem eatWsLit_run {w : List Char} (hw : ∀ a ∈ w, isGoSpace a)
    {c : Char} (hc : isGoSpace c = false) (rest : List Char) :
    eatWsLit c (w ++ c :: rest) = some rest := by
  unfold eatWsLit
  rw [dropWhile_space_run hw hc]
  simp [eatLit]

theorem eatStr_self (lit : List Char) : ∀ rest, eatStr lit (lit ++ rest) = some rest := by
  induction lit with
  | nil => intro rest; simp [eatStr]
  | cons c l ih => intro rest; simp [eatStr, eatLit, ih]

theorem eatWsStr_seriesKey_run {w : List Char} (hw : ∀ a ∈ w, isGoSpace a)
    (rest : List Char) :
    eatWsStr seriesKey (w ++ (seriesKey ++ rest)) = some rest := by
  unfold eatWsStr
  have : (w ++ (seriesKey ++ rest)).dropWhile isGoSpace = '\x22' :: ("series\x22".toList ++ rest) := by
    have := dropWhile_space_run hw (c := '\x22') (by decide) ("series\x22".toList ++ rest)
    simpa [seriesKey] using this
  rw [this]
  have := eatStr_self seriesKey rest
  simpa [seriesKey] using this

theorem eatLit_cons_self (c : Char) (l : List Char) : eatLit c (c :: l) = some l := by
  simp [eatLit]

/-- A generic substring witnessing the strict pattern: literal punctuation
interleaved with arbitrary whitespace runs `w1..w6` and a non-quote capture
value `x`. -/
def strictInstance (w1 w2 w3 w4 w5 w6 x : List Char) : List Char :=
  '[' :: (w1 ++ '\x7b' :: (w2 ++ (seriesKey ++ (w3 ++ ':' ::
    (w4 ++ '\x22' :: (x ++ '\x22' :: (w5 ++ '\x7d' :: (w6 ++ [']']))))))))

/-- A generic substring witnessing the loose pattern. -/
def looseInstance (w1 w2 x : List Char) : List Char :=
  seriesKey ++ (w1 ++ ':' :: (w2 ++ '\x22' :: (x ++ ['\x22'])))

/-- The canonical compact serialization is itself a strict-pattern instance
(single space after the colon, no other whitespace). -/
theorem serializeSeries_eq_instance (x : List Char) :
    serializeSeries x = strictInstance [] [] [] [' '] [] [] x := by
  simp [serializeSeries, strictInstance, seriesKey]

theorem serializeSeries_cons (x : List Char) :
    serializeSeries x =
      '[' :: '\x7b' :: '\x22' :: 's' :: 'e' :: 'r' :: 'i' :: 'e' :: 's' :: '\x22' :: ':' :: ' ' ::
        '\x22' :: (x ++ ['\x22', '\x7d', ']']) := by
  simp [serializeSeries]

/-- The anchored strict matcher accepts any strict-pattern instance, ignores
what follows, and captures exactly `x`. -/
theorem matchStrictAt_instance (w1 w2 w3 w4 w5 w6 x : List Char)
    (h1 : ∀ a ∈ w1, isGoSpace a) (h2 : ∀ a ∈ w2, isGoSpace a)
    (h3 : ∀ a ∈ w3, isGoSpace a) (h4 : ∀ a ∈ w4, isGoSpace a)
    (h5 : ∀ a ∈ w5, isGoSpace a) (h6 : ∀ a ∈ w6, isGoSpace a)
    (hx : ∀ c ∈ x, notQuote c) (rest : List Char) :
    matchStrictAt (strictInstance w1 w2 w3 w4 w5 w6 x ++ rest) = some x := by
  have e8 := eatWsLit_run h6 (show isGoSpace ']' = false by decide) rest
  have e7 := eatWsLit_run h5 (show isGoSpace '\x7d' = false by decide)
    (w6 ++ ']' :: rest)
  have ecap := eatCapture_run x hx (w5 ++ '\x7d' :: (w6 ++ ']' :: rest))
  have e5 := eatWsLit_run h4 (show isGoSpace '\x22' = false by decide)
    (x ++ '\x22' :: (w5 ++ '\x7d' :: (w6 ++ ']' :: rest)))
  have e4 := eatWsLit_run h3 (show isGoSpace ':' = false by decide)
    (w4 ++ '\x22' :: (x ++ '\x22' :: (w5 ++ '\x7d' :: (w6 ++ ']' :: rest))))
  have e3 := eatWsStr_seriesKey_run h2
    (w3 ++ ':' :: (w4 ++ '\x22' :: (x ++ '\x22' :: (w5 ++ '\x7d' :: (w6 ++ ']' :: rest)))))
  have e2 := eatWsLit_run h1 (show isGoSpace '\x7b' = false by decide)
    (w2 ++ (seriesKey ++ (w3 ++ ':' ::
      (w4 ++ '\x22' :: (x ++ '\x22' :: (w5 ++ '\x7d' :: (w6 ++ ']' :: rest)))))))
  simp only [strictInstance, List.cons_append, List.append_assoc, List.nil_append]
  simp only [matchStrictAt, eatLit_cons_self, Option.some_bind, e2, e3, e4, e5, ecap, e7, e8]

/-- The anchored loose matcher accepts any loose-pattern instance. -/
theorem matchLooseAt_instance (w1 w2 x : List Char)
    (h1 : ∀ a ∈ w1, isGoSpace a) (h2 : ∀ a ∈ w2, isGoSpace a)
    (hx : ∀ c ∈ x, notQuote c) (rest : List Char) :
    matchLooseAt (looseInstance w1 w2 x ++ rest) = some x := by
  have ecap := eatCapture_run x hx rest
  have e3 := eatWsLit_run h2 (show isGoSpace '\x22' = false by decide)
    (x ++ '\x22' :: rest)
  have e2 := eatWsLit_run h1 (show isGoSpace ':' = false by decide)
    (w2 ++ '\x22' :: (x ++ '\x22' :: rest))
  have e1 := eatStr_self seriesKey
    (w1 ++ ':' :: (w2 ++ '\x22' :: (x ++ '\x22' :: rest)))
  simp only [looseInstance, List.cons_append, List.append_assoc, List.nil_append]
  simp only [matchLooseAt, Option.some_bind, e1, e2, e3, ecap]

/-- The scan succeeds immediately when the matcher matches at the head. -/
theorem findCapture_cons_some {m : List Char → Option (List Char)} {c : Char}
    {l y : List Char} (h : m (c :: l) = some y) : findCapture m (c :: l) = some y := by
  simp [findCapture, h]

/-- Re-extraction hits the strict pattern at position zero of the canonical
serialization and recovers the same capture. -/
theorem findStrict_serialize (x : List Char) (hx : ∀ c ∈ x, notQuote c) :
    findStrict (serializeSeries x) = some x := by
  have hm : matchStrictAt (serializeSeries x) = some x := by
    have h := matchStrictAt_instance [] [] [] [' '] [] [] x
      (by simp) (by simp) (by simp) (by decide) (by simp) (by simp) hx []
    rw [List.append_nil] at h
    rw [serializeSeries_eq_instance]
    exact h
  rw [serializeSeries_cons] at hm ⊢
  exact findCapture_cons_some hm

/-! ### The `extract` case equations -/

theorem extract_eq_of_findStrict {t x : List Char} (h : findStrict t = some x) :
    extract t = serializeSeries x := by
  simp [extract, h]

theorem extract_eq_of_findLoose {t x : List Char} (hs : findStrict t = none)
    (h : findLoose t = some x) : extract t = serializeSeries x := by
  simp [extract, hs, h]

theorem extract_eq_trim {t : List Char} (hs : findStrict t = none)
    (hl : findLoose t = none) : extract t = trimSpace t := by
  simp [extract, hs, hl]

/-! ### `trimSpace` structure -/

theorem dropWhile_dropWhile (p : Char → Bool) (l : List Char) :
    (l.dropWhile p).dropWhile p = l.dropWhile p := by
  induction l with
  | nil => rfl
  | cons a l ih =>
    by_cases h : p a
    · simp [List.dropWhile_cons_of_pos h, ih]
    · simp [List.dropWhile_cons_of_neg h]

theorem dropWhile_eq_self_of_append {p : Char → Bool} {l w : List Char}
    (h : (l ++ w).dropWhile p = l ++ w) : l.dropWhile p = l := by
  cases l with
  | nil => rfl
  | cons a l' =>
    by_cases hp : p a
    · exfalso
      rw [List.cons_append, List.dropWhile_cons_of_pos hp] at h
      have hlen := (List.dropWhile_suffix (l := l' ++ w) p).length_le
      rw [h] at hlen
      simp at hlen
    · simp [List.dropWhile_cons_of_neg hp]

/-- The tail of `trimSpace t`: the reversed trailing-space run. -/
def trimTail (t : List Char) : List Char :=
  ((t.dropWhile isUnicodeSpace).reverse.takeWhile isUnicodeSpace).reverse

/-- `t.dropWhile` splits as the trimmed core followed by the trailing-space
run. -/
theorem dropWhile_eq_trim_append (t : List Char) :
    t.dropWhile isUnicodeSpace = trimSpace t ++ trimTail t := by
  conv_lhs => rw [← List.reverse_reverse (t.dropWhile isUnicodeSpace)]
  conv_lhs =>
    rw [← List.takeWhile_append_dropWhile isUnicodeSpace
      (t.dropWhile isUnicodeSpace).reverse]
  rw [List.reverse_append]
  rfl

/-- `trimSpace` removes only a leading and a trailing run of Unicode
whitespace: the trimmed result is an infix of the input between two
all-whitespace runs. -/
theorem trimSpace_decomp (t : List Char) :
    ∃ u v, (∀ c ∈ u, isUnicodeSpace c) ∧ (∀ c ∈ v, isUnicodeSpace c) ∧
      t = u ++ trimSpace t ++ v := by
  refine ⟨t.takeWhile isUnicodeSpace, trimTail t, ?_, ?_, ?_⟩
  · intro c hc; exact List.mem_takeWhile_imp hc
  · intro c hc
    rw [trimTail, List.mem_reverse] at hc
    exact List.mem_takeWhile_imp hc
  · conv_lhs =>
      rw [← List.takeWhile_append_dropWhile isUnicodeSpace t,
        dropWhile_eq_trim_append t]
    rw [List.append_assoc]

theorem trimSpace_dropWhile_self (t : List Char) :
    (trimSpace t).dropWhile isUnicodeSpace = trimSpace t := by
  have hself := dropWhile_dropWhile isUnicodeSpace t
  rw [dropWhile_eq_trim_append t] at hself
  exact dropWhile_eq_self_of_append hself

theorem trimSpace_idem (t : List Char) : trimSpace (trimSpace t) = trimSpace t := by
  have h2 : (trimSpace t).reverse.dropWhile isUnicodeSpace = (trimSpace t).reverse := by
    have hrev : (trimSpace t).reverse =
        (t.dropWhile isUnicodeSpace).reverse.dropWhile isUnicodeSpace := by
      rw [trimSpace, List.reverse_reverse]
    rw [hrev, dropWhile_dropWhile, ← hrev]
  show (((trimSpace t).dropWhile isUnicodeSpace).reverse.dropWhile isUnicodeSpace).reverse
      = trimSpace t
  rw [trimSpace_dropWhile_self, h2, List.reverse_reverse]

/-! ### No match in a string, no match in its infixes -/

/-- If the anchored matcher is append-stable and fails at every position of
`u ++ w ++ v`, it fails at every position of the middle part `w`.  Used with
`w = trimSpace t`: trimming whitespace cannot create a pattern match. -/
theorem findCapture_none_of_infix (m : List Char → Option (List Char))
    (hm : m [] = none)
    (happ : ∀ {s cap : List Char} (v : List Char), m s = some cap → m (s ++ v) = some cap)
    {u w v : List Char} (h : findCapture m (u ++ w ++ v) = none) :
    findCapture m w = none := by
  rw [findCapture_none_iff m hm] at h ⊢
  intro i
  cases hcap : m (w.drop i) with
  | none => rfl
  | some cap =>
    exfalso
    have hi : i ≤ w.length := by
      by_contra hgt
      rw [List.drop_eq_nil_of_le (by omega), hm] at hcap
      cases hcap
    have h2 : m (w.drop i ++ v) = some cap := happ v hcap
    have h3 : (u ++ w ++ v).drop (u.length + i) = w.drop i ++ v := by
      rw [List.append_assoc, List.drop_append i, List.drop_append_of_le_length hi]
    have h4 := h (u.length + i)
    rw [h3, h2] at h4
    cases h4

theorem findStrict_trimSpace_none {t : List Char} (h : findStrict t = none) :
    findStrict (trimSpace t) = none := by
  obtain ⟨u, v, -, -, hdec⟩ := trimSpace_decomp t
  rw [hdec] at h
  exact findCapture_none_of_infix matchStrictAt matchStrictAt_nil
    (fun v h => matchStrictAt_append v h) h

theorem findLoose_trimSpace_none {t : List Char} (h : findLoose t = none) :
    findLoose (trimSpace t) = none := by
  obtain ⟨u, v, -, -, hdec⟩ := trimSpace_decomp t
  rw [hdec] at h
  exact findCapture_none_of_infix matchLooseAt matchLooseAt_nil
    (fun v h => matchLooseAt_append v h) h

/-! ## Concrete sample values used by witnesses and counterexamples -/

def sampleClaude : ClaudeResponse :=
  { id := "", type := "", role := "",
    content := [{ type := "text", text := "ok" }],
    model := "", stopReason := "", stopSequence := none,
    usage := { inputTokens := 1, outputTokens := 2 } }

def sampleClaudeEmpty : ClaudeResponse :=
  { id := "", type := "", role := "", content := [], model := "",
    stopReason := "", stopSequence := none,
    usage := { inputTokens := 1, outputTokens := 2 } }

def sampleNova : NovaResponse :=
  { output := { role := "assistant", content := [{ text := "ok2" }], stop := true },
    usage := { inputTokens := 1, outputTokens := 2 } }

def sampleNovaEmpty : NovaResponse :=
  { output := { role := "assistant", content := [], stop := true },
    usage := { inputTokens := 1, outputTokens := 2 } }

def sampleLlama : LlamaResponse :=
  { generation := "gen", usage := { inputTokens := 1, outputTokens := 0 } }

def sampleLlama70b : Llama70bResponse :=
  { generation := "g", usage := { inputTokens := 1, outputTokens := 2 } }

def sampleDeepseek : DeepseekResponse :=
  { choices := [{ message := { role := "assistant", content := "hello" } }],
    usage := { inputTokens := 3, outputTokens := 4 } }

def sampleEnv : Env :=
  { accessKeyId := "id", secretAccessKey := "secret",
    awsRegion := "us-east-2", dotenvLoadFails := false }

/-! ## The claims -/

/-- C1: every raw text containing a substring matching the strict pattern
`[{"series": "X"}]` (arbitrary whitespace around punctuation, `X` any run of
non-quote characters) extracts to exactly the compact re-serialization
`[{"series": "Y"}]` where `Y` is the capture of the leftmost strict match —
the matcher succeeds at position `i`, fails at every earlier position, and
the captured value is used literally (it is itself quote-free and pasted
into the output unchanged, untrimmed). -/
theorem c1_strict_first_match (pre w1 w2 w3 w4 w5 w6 x post t : List Char)
    (hw1 : ∀ a ∈ w1, isGoSpace a) (hw2 : ∀ a ∈ w2, isGoSpace a)
    (hw3 : ∀ a ∈ w3, isGoSpace a) (hw4 : ∀ a ∈ w4, isGoSpace a)
    (hw5 : ∀ a ∈ w5, isGoSpace a) (hw6 : ∀ a ∈ w6, isGoSpace a)
    (hx : ∀ c ∈ x, notQuote c)
    (ht : t = pre ++ strictInstance w1 w2 w3 w4 w5 w6 x ++ post) :
    ∃ y i, (∀ c ∈ y, notQuote c) ∧
      matchStrictAt (t.drop i) = some y ∧
      (∀ j < i, matchStrictAt (t.drop j) = none) ∧
      extract t = serializeSeries y := by
  have hdrop : t.drop pre.length = strictInstance w1 w2 w3 w4 w5 w6 x ++ post := by
    subst ht
    rw [List.append_assoc]
    simp
  have hat : matchStrictAt (t.drop pre.length) = some x := by
    rw [hdrop]
    exact matchStrictAt_instance w1 w2 w3 w4 w5 w6 x hw1 hw2 hw3 hw4 hw5 hw6 hx post
  cases hfs : findStrict t with
  | none =>
    exact absurd hat (by rw [findStrict_none_forall hfs pre.length]; simp)
  | some y =>
    obtain ⟨i, hi, hlt⟩ :=
      (findCapture_some_iff matchStrictAt matchStrictAt_nil t y).mp hfs
    exact ⟨y, i, findStrict_noQuote hfs, hi, hlt, extract_eq_of_findStrict hfs⟩

theorem c1_witness :
    ∃ y i, (∀ c ∈ y, notQuote c) ∧
      matchStrictAt (("Extra commentary [\x7b\x22series\x22: \x22Friends\x22\x7d] more text".toList).drop i) = some y ∧
      (∀ j < i, matchStrictAt (("Extra commentary [\x7b\x22series\x22: \x22Friends\x22\x7d] more text".toList).drop j) = none) ∧
      extract "Extra commentary [\x7b\x22series\x22: \x22Friends\x22\x7d] more text".toList = serializeSeries y :=
  c1_strict_first_match "Extra commentary ".toList [] [] [] [' '] [] []
    "Friends".toList " more text".toList _
    (by decide) (by decide) (by decide) (by decide) (by decide) (by decide)
    (by decide) (by decide)

/-- C2: every raw text containing the loose fragment `"series": "X"` but no
strict array-wrapped match extracts to the same canonical compact form, with
the capture taken from the leftmost loose match. -/
theorem c2_loose_first_match (pre w1 w2 x post t : List Char)
    (hw1 : ∀ a ∈ w1, isGoSpace a) (hw2 : ∀ a ∈ w2, isGoSpace a)
    (hx : ∀ c ∈ x, notQuote c)
    (hnostrict : ∀ i, matchStrictAt (t.drop i) = none)
    (ht : t = pre ++ looseInstance w1 w2 x ++ post) :
    ∃ y i, (∀ c ∈ y, notQuote c) ∧
      matchLooseAt (t.drop i) = some y ∧
      (∀ j < i, matchLooseAt (t.drop j) = none) ∧
      extract t = serializeSeries y := by
  have hs : findStrict t = none :=
    (findCapture_none_iff matchStrictAt matchStrictAt_nil t).mpr hnostrict
  have hdrop : t.drop pre.length = looseInstance w1 w2 x ++ post := by
    subst ht
    rw [List.append_assoc]
    simp
  have hat : matchLooseAt (t.drop pre.length) = some x := by
    rw [hdrop]
    exact matchLooseAt_instance w1 w2 x hw1 hw2 hx post
  cases hfl : findLoose t with
  | none =>
    exact absurd hat (by rw [findLoose_none_forall hfl pre.length]; simp)
  | some y =>
    obtain ⟨i, hi, hlt⟩ :=
      (findCapture_some_iff matchLooseAt matchLooseAt_nil t y).mp hfl
    exact ⟨y, i, findLoose_noQuote hfl, hi, hlt, extract_eq_of_findLoose hs hfl⟩

theorem c2_witness :
    ∃ y i, (∀ c ∈ y, notQuote c) ∧
      matchLooseAt (("The value \x22series\x22: \x22Breaking Bad\x22 was found.".toList).drop i) = some y ∧
      (∀ j < i, matchLooseAt (("The value \x22series\x22: \x22Breaking Bad\x22 was found.".toList).drop j) = none) ∧
      extract "The value \x22series\x22: \x22Breaking Bad\x22 was found.".toList = serializeSeries y :=
  c2_loose_first_match "The value ".toList [] [' '] "Breaking Bad".toList
    " was found.".toList _
    (by decide) (by decide) (by decide)
    (findStrict_none_forall (by decide)) (by decide)

/-- C3: a raw text matching neither pattern at any position extracts to
itself with only leading and trailing Unicode whitespace removed (the text
decomposes as whitespace ++ result ++ whitespace), and the empty input
extracts to the empty output; the fallback is total, never an error. -/
theorem c3_fallback_trim (t : List Char)
    (h : ∀ i, matchStrictAt (t.drop i) = none ∧ matchLooseAt (t.drop i) = none) :
    extract t = trimSpace t ∧
    (∃ u v, (∀ c ∈ u, isUnicodeSpace c) ∧ (∀ c ∈ v, isUnicodeSpace c) ∧
      t = u ++ extract t ++ v) ∧
    extract ([] : List Char) = [] := by
  have hs : findStrict t = none :=
    (findCapture_none_iff matchStrictAt matchStrictAt_nil t).mpr fun i => (h i).1
  have hl : findLoose t = none :=
    (findCapture_none_iff matchLooseAt matchLooseAt_nil t).mpr fun i => (h i).2
  have he := extract_eq_trim hs hl
  refine ⟨he, ?_, rfl⟩
  obtain ⟨u, v, hu, hv, hd⟩ := trimSpace_decomp t
  exact ⟨u, v, hu, hv, by rw [he]; exact hd⟩

theorem c3_witness :
    extract "No structured data here.".toList = trimSpace "No structured data here.".toList ∧
    (∃ u v, (∀ c ∈ u, isUnicodeSpace c) ∧ (∀ c ∈ v, isUnicodeSpace c) ∧
      "No structured data here.".toList = u ++ extract "No structured data here.".toList ++ v) ∧
    extract ([] : List Char) = [] :=
  c3_fallback_trim _ fun i =>
    ⟨findStrict_none_forall (by decide) i, findLoose_none_forall (by decide) i⟩

/-- C10: the three-step extraction is idempotent — re-extracting any
extraction output returns it unchanged — and every canonical compact
serialization of a quote-free value is a fixed point of `extract`. -/
theorem c10_extract_idempotent (t x : List Char) (hx : ∀ c ∈ x, notQuote c) :
    extract (extract t) = extract t ∧
    extract (serializeSeries x) = serializeSeries x := by
  constructor
  · cases hs : findStrict t with
    | some y =>
      have hq := findStrict_noQuote hs
      rw [extract_eq_of_findStrict hs,
        extract_eq_of_findStrict (findStrict_serialize y hq)]
    | none =>
      cases hl : findLoose t with
      | some y =>
        have hq := findLoose_noQuote hl
        rw [extract_eq_of_findLoose hs hl,
          extract_eq_of_findStrict (findStrict_serialize y hq)]
      | none =>
        rw [extract_eq_trim hs hl,
          extract_eq_trim (findStrict_trimSpace_none hs) (findLoose_trimSpace_none hl),
          trimSpace_idem]
  · exact extract_eq_of_findStrict (findStrict_serialize x hx)

theorem c10_witness :
    extract (extract "  mixed \x22series\x22 : \x22Dark\x22 output ".toList) =
      extract "  mixed \x22series\x22 : \x22Dark\x22 output ".toList ∧
    extract (serializeSeries "Friends".toList) = serializeSeries "Friends".toList :=
  c10_extract_idempotent _ "Friends".toList (by decide)

/-- C7 counterexample: on a chat-style response with an empty content list
the claim demands the empty string as the printed result line; the claude
code instead prints no standard-output line at all (early return after a
diagnostic). -/
theorem c7_counterexample :
    stdoutOf (claudePrintResponse
      { id := "msg-1", type := "message", role := "assistant", content := [],
        model := "claude-3-5-sonnet", stopReason := "end_turn",
        stopSequence := none,
        usage := { inputTokens := 10, outputTokens := 0 } }) ≠ [""] ∧
    stdoutOf (claudePrintResponse
      { id := "msg-1", type := "message", role := "assistant", content := [],
        model := "claude-3-5-sonnet", stopReason := "end_turn",
        stopSequence := none,
        usage := { inputTokens := 10, outputTokens := 0 } }) = [] := by
  exact ⟨by decide, rfl⟩

/-- C7 (amended): when the decoded chat-style response has an empty content
list, the claude and nova `PrintResponse` write nothing to standard output:
they emit one diagnostic log line and return early, skipping the extractor
and the usage logging; an error is never raised. -/
theorem c7_empty_content_no_stdout (rc : ClaudeResponse) (rn : NovaResponse)
    (hc : rc.content = []) (hn : rn.output.content = []) :
    claudePrintResponse rc = [Ev.log "No response content received from Claude model"] ∧
    novaPrintResponse rn = [Ev.log "No response content received from Nova model"] ∧
    stdoutOf (claudePrintResponse rc) = [] ∧
    stdoutOf (novaPrintResponse rn) = [] := by
  refine ⟨?_, ?_, ?_, ?_⟩ <;>
    simp [claudePrintResponse, novaPrintResponse, hc, hn, stdoutOf]

theorem c7_witness :
    claudePrintResponse sampleClaudeEmpty =
      [Ev.log "No response content received from Claude model"] ∧
    novaPrintResponse sampleNovaEmpty =
      [Ev.log "No response content received from Nova model"] ∧
    stdoutOf (claudePrintResponse sampleClaudeEmpty) = [] ∧
    stdoutOf (novaPrintResponse sampleNovaEmpty) = [] :=
  c7_empty_content_no_stdout sampleClaudeEmpty sampleNovaEmpty rfl rfl

/-- C4 counterexample: the llama backend prints the raw generation verbatim
behind a `Response: ` prefix; on a generation containing the strict pattern
the printed line differs from the three-step extraction the claim requires
of every backend. -/
theorem c4_counterexample :
    llamaPrintResponse
        { generation := "Sure! [\x7b\x22series\x22: \x22Friends\x22\x7d]",
          usage := { inputTokens := 0, outputTokens := 0 } } =
      [Ev.out "Response: Sure! [\x7b\x22series\x22: \x22Friends\x22\x7d]"] ∧
    extractS "Sure! [\x7b\x22series\x22: \x22Friends\x22\x7d]" =
      "[\x7b\x22series\x22: \x22Friends\x22\x7d]" ∧
    "Response: Sure! [\x7b\x22series\x22: \x22Friends\x22\x7d]" ≠
      extractS "Sure! [\x7b\x22series\x22: \x22Friends\x22\x7d]" := by
  refine ⟨by decide, by decide, by decide⟩

/-- C4 (amended): only the claude, nova and llama70b variants produce their
structured line by the three-step extraction of the canonical text; the
llama and deepseek variants print the raw generation verbatim behind a
`Response: ` prefix. -/
theorem c4_extraction_per_backend (rc : ClaudeResponse) (ic : ClaudeContentItem)
    (tc : List ClaudeContentItem) (hc : rc.content = ic :: tc)
    (rn : NovaResponse) (ni : NovaContent) (tn : List NovaContent)
    (hn : rn.output.content = ni :: tn)
    (r70 : Llama70bResponse) (rl : LlamaResponse)
    (rd : DeepseekResponse) (cd : DeepseekChoice) (td : List DeepseekChoice)
    (hd : rd.choices = cd :: td) :
    (stdoutOf (claudePrintResponse rc)).head? = some (extractS ic.text) ∧
    (stdoutOf (novaPrintResponse rn)).head? = some (extractS ni.text) ∧
    (stdoutOf (llama70bPrintResponse r70)).head? = some (extractS r70.generation) ∧
    (stdoutOf (llamaPrintResponse rl)).head? = some ("Response: " ++ rl.generation) ∧
    (stdoutOf (deepseekPrintResponse rd)).head? = some ("Response: " ++ cd.message.content) := by
  refine ⟨?_, ?_, ?_, ?_, ?_⟩
  · simp [claudePrintResponse, hc, stdoutOf]
  · simp [novaPrintResponse, hn, stdoutOf]
  · simp [llama70bPrintResponse, stdoutOf]
  · by_cases h : 0 < rl.usage.inputTokens ∨ 0 < rl.usage.outputTokens <;>
      simp [llamaPrintResponse, stdoutOf, h]
  · simp [deepseekPrintResponse, hd, stdoutOf]

theorem c4_witness :
    (stdoutOf (claudePrintResponse sampleClaude)).head? = some (extractS "ok") ∧
    (stdoutOf (novaPrintResponse sampleNova)).head? = some (extractS "ok2") ∧
    (stdoutOf (llama70bPrintResponse sampleLlama70b)).head? = some (extractS "g") ∧
    (stdoutOf (llamaPrintResponse sampleLlama)).head? = some ("Response: " ++ "gen") ∧
    (stdoutOf (deepseekPrintResponse sampleDeepseek)).head? = some ("Response: " ++ "hello") :=
  c4_extraction_per_backend sampleClaude { type := "text", text := "ok" } [] rfl
    sampleNova { text := "ok2" } [] rfl
    sampleLlama70b sampleLlama
    sampleDeepseek { message := { role := "assistant", content := "hello" } } [] rfl

/-- C5 counterexample: the deepseek printer writes the token-usage counters
to standard output, so on a successful invocation its standard output is
three lines, not one, and contains usage lines. -/
theorem c5_counterexample :
    stdoutOf (deepseekPrintResponse
      { choices := [{ message := { role := "assistant", content := "hello" } }],
        usage := { inputTokens := 3, outputTokens := 4 } }) =
      ["Response: hello", "Input tokens: 3", "Output tokens: 4"] ∧
    "Input tokens: 3" ∈ stdoutOf (deepseekPrintResponse
      { choices := [{ message := { role := "assistant", content := "hello" } }],
        usage := { inputTokens := 3, outputTokens := 4 } }) ∧
    (stdoutOf (deepseekPrintResponse
      { choices := [{ message := { role := "assistant", content := "hello" } }],
        usage := { inputTokens := 3, outputTokens := 4 } })).length ≠ 1 := by
  refine ⟨by decide, by decide, by decide⟩

/-- C5 (amended): the one-result-line / separate-diagnostic-stream contract
holds only inside the claude, nova and llama70b printers (one stdout line,
usage logged); the llama and deepseek printers write the usage counters to
standard output, and `main` itself prints progress lines to standard output
before every invocation, so whole-process standard output is never exactly
the one structured line. -/
theorem c5_stream_separation (rc : ClaudeResponse) (ic : ClaudeContentItem)
    (tc : List ClaudeContentItem) (hc : rc.content = ic :: tc)
    (rn : NovaResponse) (ni : NovaContent) (tn : List NovaContent)
    (hn : rn.output.content = ni :: tn)
    (r70 : Llama70bResponse)
    (rd : DeepseekResponse) (cd : DeepseekChoice) (td : List DeepseekChoice)
    (hd : rd.choices = cd :: td)
    (rl : LlamaResponse) (hlu : 0 < rl.usage.inputTokens)
    (mf infl : String) (env : Env)
    (hval : validModelNames.contains (goToLower mf) = true)
    (hk : env.accessKeyId ≠ "") (hsk : env.secretAccessKey ≠ "")
    (hrg : env.awsRegion ≠ "") :
    stdoutOf (claudePrintResponse rc) = [extractS ic.text] ∧
    logOf (claudePrintResponse rc) =
      ["Input tokens: " ++ toString rc.usage.inputTokens,
       "Output tokens: " ++ toString rc.usage.outputTokens] ∧
    stdoutOf (novaPrintResponse rn) = [extractS ni.text] ∧
    logOf (novaPrintResponse rn) =
      ["Input tokens: " ++ toString rn.usage.inputTokens,
       "Output tokens: " ++ toString rn.usage.outputTokens] ∧
    stdoutOf (llama70bPrintResponse r70) = [extractS r70.generation] ∧
    logOf (llama70bPrintResponse r70) =
      ["Input tokens: " ++ toString r70.usage.inputTokens,
       "Output tokens: " ++ toString r70.usage.outputTokens] ∧
    stdoutOf (deepseekPrintResponse rd) =
      ["Response: " ++ cd.message.content,
       "Input tokens: " ++ toString rd.usage.inputTokens,
       "Output tokens: " ++ toString rd.usage.outputTokens] ∧
    stdoutOf (llamaPrintResponse rl) =
      ["Response: " ++ rl.generation,
       "Input tokens: " ++ toString rl.usage.inputTokens,
       "Output tokens: " ++ toString rl.usage.outputTokens] ∧
    (mainRun mf infl env).stdoutLines.head? = some "Loading environment variables..." ∧
    (mainRun mf infl env).invokeAttempted = true := by
  refine ⟨?_, ?_, ?_, ?_, ?_, ?_, ?_, ?_, ?_, ?_⟩
  · simp [claudePrintResponse, hc, stdoutOf]
  · simp [claudePrintResponse, hc, logOf]
  · simp [novaPrintResponse, hn, stdoutOf]
  · simp [novaPrintResponse, hn, logOf]
  · simp [llama70bPrintResponse, stdoutOf]
  · simp [llama70bPrintResponse, logOf]
  · simp [deepseekPrintResponse, hd, stdoutOf]
  · simp [llamaPrintResponse, stdoutOf, Or.inl hlu]
  · have hmem : goToLower mf ∈ validModelNames := by simpa using hval
    by_cases hinfl : infl = "" <;>
      simp [mainRun, hmem, hinfl, hk, hsk, hrg]
  · have hmem : goToLower mf ∈ validModelNames := by simpa using hval
    by_cases hinfl : infl = "" <;>
      simp [mainRun, hmem, hinfl, hk, hsk, hrg]

theorem c5_witness :
    stdoutOf (claudePrintResponse sampleClaude) = [extractS "ok"] ∧
    logOf (claudePrintResponse sampleClaude) =
      ["Input tokens: " ++ toString (1 : Int), "Output tokens: " ++ toString (2 : Int)] ∧
    stdoutOf (novaPrintResponse sampleNova) = [extractS "ok2"] ∧
    logOf (novaPrintResponse sampleNova) =
      ["Input tokens: " ++ toString (1 : Int), "Output tokens: " ++ toString (2 : Int)] ∧
    stdoutOf (llama70bPrintResponse sampleLlama70b) = [extractS "g"] ∧
    logOf (llama70bPrintResponse sampleLlama70b) =
      ["Input tokens: " ++ toString (1 : Int), "Output tokens: " ++ toString (2 : Int)] ∧
    stdoutOf (deepseekPrintResponse sampleDeepseek) =
      ["Response: " ++ "hello",
       "Input tokens: " ++ toString (3 : Int), "Output tokens: " ++ toString (4 : Int)] ∧
    stdoutOf (llamaPrintResponse sampleLlama) =
      ["Response: " ++ "gen",
       "Input tokens: " ++ toString (1 : Int), "Output tokens: " ++ toString (0 : Int)] ∧
    (mainRun "nova" "" sampleEnv).stdoutLines.head? =
      some "Loading environment variables..." ∧
    (mainRun "nova" "" sampleEnv).invokeAttempted = true :=
  c5_stream_separation sampleClaude { type := "text", text := "ok" } [] rfl
    sampleNova { text := "ok2" } [] rfl
    sampleLlama70b
    sampleDeepseek { message := { role := "assistant", content := "hello" } } [] rfl
    sampleLlama (by decide) "nova" "" sampleEnv
    (by decide) (by decide) (by decide) (by decide)

set_option maxRecDepth 20000 in
/-- C6 counterexample: the backend name `Nova` lies outside the fixed set of
identifiers, yet the dispatcher lowercases the flag before validating, so it
does not report a configuration error and proceeds to the invocation. -/
theorem c6_counterexample :
    validModelNames.contains "Nova" = false ∧
    (mainRun "Nova" "" sampleEnv).fatalExit = false ∧
    (mainRun "Nova" "" sampleEnv).invokeAttempted = true := by
  refine ⟨by decide, by decide, by decide⟩

/-- C6 (amended): for every backend flag whose lowercased form is outside
the fixed set, `main` dies through `log.Fatalf` (non-zero exit) with the
single invalid-model message, prints nothing to standard output, and
attempts zero invocations of the inference API. -/
theorem c6_unknown_model_fatal (modelFlag inputFlag : String) (env : Env)
    (h : validModelNames.contains (goToLower modelFlag) = false) :
    (mainRun modelFlag inputFlag env).fatalExit = true ∧
    (mainRun modelFlag inputFlag env).invokeAttempted = false ∧
    (mainRun modelFlag inputFlag env).stdoutLines = [] ∧
    (mainRun modelFlag inputFlag env).logLines =
      ["Invalid model specified. Use \x27nova\x27, \x27llama\x27, \x27llama70b\x27, \x27claude\x27, or \x27deepseek\x27"] := by
  have hmem : goToLower modelFlag ∉ validModelNames := by simpa using h
  refine ⟨?_, ?_, ?_, ?_⟩ <;> simp [mainRun, hmem]

theorem c6_witness :
    (mainRun "unknown" "" sampleEnv).fatalExit = true ∧
    (mainRun "unknown" "" sampleEnv).invokeAttempted = false ∧
    (mainRun "unknown" "" sampleEnv).stdoutLines = [] ∧
    (mainRun "unknown" "" sampleEnv).logLines =
      ["Invalid model specified. Use \x27nova\x27, \x27llama\x27, \x27llama70b\x27, \x27claude\x27, or \x27deepseek\x27"] :=
  c6_unknown_model_fatal "unknown" "" sampleEnv (by decide)

/-- C8: payload construction is deterministic — for every prompt each
backend embeds its fixed constant parameter table, only the message/prompt
field varying — and every sampling parameter is in range: temperatures lie
in [0,1] (hence within every backend's permitted interval) and top-p in
(0,1]; deepseek carries no sampling parameters, only its fixed max-token
setting. -/
theorem c8_payload_constants (p : String) :
    claudeBuildPayload p =
      { anthropicVersion := "bedrock-2023-05-31", maxTokens := 200, topK := 250,
        stopSequences := [], temperature := 1, topP := 999/1000,
        messages := [{ role := "user", content := [{ type := "text", text := p }] }] } ∧
    novaBuildPayload p =
      { inferenceConfig := { maxNewTokens := 512, temperature := 7/10, topP := 9/10 },
        messages := [{ role := "user", content := [{ text := p }] }] } ∧
    llamaBuildPayload p =
      { prompt := p, maxGenLen := 512, temperature := 7/10, topP := 9/10 } ∧
    llama70bBuildPayload p =
      { prompt := p, maxGenLen := 64, temperature := 1/100, topP := 1/2 } ∧
    deepseekBuildPayload p =
      { inferenceConfig := { maxTokens := 512 },
        messages := [{ role := "user", content := p }] } ∧
    (0 ≤ (claudeBuildPayload p).temperature ∧ (claudeBuildPayload p).temperature ≤ 1) ∧
    (0 < (claudeBuildPayload p).topP ∧ (claudeBuildPayload p).topP ≤ 1) ∧
    (0 ≤ (novaBuildPayload p).inferenceConfig.temperature ∧
      (novaBuildPayload p).inferenceConfig.temperature ≤ 1) ∧
    (0 < (novaBuildPayload p).inferenceConfig.topP ∧
      (novaBuildPayload p).inferenceConfig.topP ≤ 1) ∧
    (0 ≤ (llamaBuildPayload p).temperature ∧ (llamaBuildPayload p).temperature ≤ 1) ∧
    (0 < (llamaBuildPayload p).topP ∧ (llamaBuildPayload p).topP ≤ 1) ∧
    (0 ≤ (llama70bBuildPayload p).temperature ∧ (llama70bBuildPayload p).temperature ≤ 1) ∧
    (0 < (llama70bBuildPayload p).topP ∧ (llama70bBuildPayload p).topP ≤ 1) := by
  refine ⟨rfl, rfl, rfl, rfl, rfl, ?_, ?_, ?_, ?_, ?_, ?_, ?_, ?_⟩ <;>
    constructor <;>
      norm_num [claudeBuildPayload, novaBuildPayload, llamaBuildPayload,
        llama70bBuildPayload]

set_option maxRecDepth 20000 in
/-- C9: only the `model` and `input` flags are registered, so a `-prompt`
argument is rejected by flag parsing with a fatal error (contradicting the
README-documented prompt flag), while `-input` text is accepted and
template-filled into the fixed series-extraction instruction prompt that
`main` prints and sends to the backend. -/
theorem c9_input_flag_only :
    parseFlags [("prompt", "Explain quantum computing in simple terms")] defaultFlags =
      Except.error "flag provided but not defined: -prompt" ∧
    parseFlags [("input", "Friends Season 1")] defaultFlags =
      Except.ok { model := "nova", input := "Friends Season 1" } ∧
    (mainRun "nova" "Friends Season 1" sampleEnv).stdoutLines =
      ["Loading environment variables...",
       "Invoking Amazon Bedrock Nova model...",
       "Prompt: " ++ promptTemplateFill "Friends Season 1"] := by
  refine ⟨rfl, rfl, by decide⟩

end BedrockSeries
